import Mathlib

/-!
Example Lambda handlers of the Serverless Application Model repository.

A shallow embedding of two Go handlers and theorems about them:

* `examples/2016-10-31/image_resize_golang/main.go` (`ImageResize.Handler`),
* `examples/2016-10-31/hello-world-golang/main.go` (`HelloWorld.Handler`).

The image-resize handler is a loop of calls into libraries that are not part of
the repository (the S3 download/upload managers, `image.Decode`,
`resize.Resize`, `jpeg.Encode`).  Those libraries are parameters of the
embedding (`ImageResize.Services`); the state of everything outside the process
is an abstract world `W` threaded through the calls that perform I/O.  Every
library call the handler makes is recorded, in order and with its arguments, in
a trace, and the ways the Go function can end (return, `log.Fatalln`, run-time
panic) are the constructors of `ImageResize.Outcome`.
-/

namespace ImageResize

/-! ## Event types (the fields of `events.S3Event` the handler reads) -/

/-- Type `events.S3Object`: `Key string`, `Size int64`. -/
structure S3Object where
  Key : String
  Size : Int
  deriving DecidableEq, Repr

/-- Type `events.S3Bucket`: `Name string`. -/
structure S3Bucket where
  Name : String
  deriving DecidableEq, Repr

/-- Type `events.S3Entity`. -/
structure S3Entity where
  Bucket : S3Bucket
  Object : S3Object
  deriving DecidableEq, Repr

/-- Type `events.S3EventRecord`. -/
structure S3EventRecord where
  S3 : S3Entity
  deriving DecidableEq, Repr

/-- Type `events.S3Event`. -/
structure S3Event where
  Records : List S3EventRecord
  deriving DecidableEq, Repr

/-! ## Library calls -/

/-- The interpolation kernels exported by `github.com/nfnt/resize`. -/
inductive InterpolationFunction
  | NearestNeighbor
  | Bilinear
  | Bicubic
  | MitchellNetravali
  | Lanczos2
  | Lanczos3
  deriving DecidableEq, Repr

/-- The libraries the handler calls, as given functions.  Bytes are natural
numbers.  `W` is the state of the world outside the process (object store,
network); `Img` is the type of decoded images.

* `maxAlloc`: the largest length `make([]byte, n)` accepts.
* `Download w bucket key buf`: `downloader.Download(aws.NewWriteAtBuffer(buf), ...)`;
  on success it yields the bytes the call stored, from offset 0 on, in the
  memory of the buffer it was handed.
* `Decode file`: `image.Decode(bytes.NewReader(file))`.
* `Resize width height img interp`: `resize.Resize(width, height, img, interp)`.
* `Encode img quality`: `jpeg.Encode(buf, img, &jpeg.Options(Quality: quality))`,
  yielding `buf.Bytes()`.
* `Upload w bucket key body`: `uploader.Upload(...)`. -/
structure Services (W Img : Type) where
  maxAlloc : Nat
  Download : W → String → String → List Nat → Except String (List Nat) × W
  Decode : List Nat → Except String Img
  Resize : Nat → Nat → Img → InterpolationFunction → Img
  Encode : Img → Nat → Except String (List Nat)
  Upload : W → String → String → List Nat → Except String Unit × W

/-- One library call made by the handler, with its arguments. -/
inductive Call (Img : Type)
  | Download (bucket key : String) (buf : List Nat)
  | Decode (file : List Nat)
  | Resize (width height : Nat) (img : Img) (interp : InterpolationFunction)
  | Encode (img : Img) (quality : Nat)
  | Upload (bucket key : String) (body : List Nat)
  deriving DecidableEq, Repr

/-- How an invocation of the handler ends: it returns `(value, err)`, or
`log.Fatalln` prints `msg` and exits the process, or the Go run time panics. -/
inductive Outcome
  | returned (value : String) (err : Option String)
  | fatal (msg : String)
  | panicked (msg : String)
  deriving DecidableEq, Repr

/-- Result of one pass through the loop body: `abort = none` when the pass
reached the end of the body. -/
structure Iteration (W Img : Type) where
  abort : Option Outcome
  trace : List (Call Img)
  world : W

/-- Result of an invocation. -/
structure Run (W Img : Type) where
  outcome : Outcome
  trace : List (Call Img)
  world : W

/-- Function `os.Getenv`: the value of the variable, empty when it is not set. -/
def Getenv (environ : String → Option String) (key : String) : String :=
  (environ key).getD ""

/-- Expression `make([]byte, n)` for `n : int64`: a run-time panic for a negative
or too large length, `n` zero bytes otherwise. -/
def makeBytes (maxAlloc : Nat) (n : Int) : Option (List Nat) :=
  if n < 0 ∨ (maxAlloc : Int) < n then none else some (List.replicate n.toNat 0)

/-- The slice `file` of the handler after a download that stored `stored` in its
memory: the slice keeps its length, the bytes stored within it replace the
zeros, and what lies beyond its length is not part of it. -/
def writeAt (file stored : List Nat) : List Nat :=
  stored.take file.length ++ file.drop stored.length

variable {W Img : Type}

/-- Body of the `for _, record := range event.Records` loop of `Handler`. -/
def processRecord (svc : Services W Img) (dstBucket : String) (w : W)
    (record : S3EventRecord) : Iteration W Img :=
  let srcBucket := record.S3.Bucket.Name
  let srcKey := record.S3.Object.Key
  let imgSize := record.S3.Object.Size
  match makeBytes svc.maxAlloc imgSize with
  | none => ⟨some (.panicked "runtime error: makeslice: len out of range"), [], w⟩
  | some buf =>
    match svc.Download w srcBucket srcKey buf with
    | (.error err, w1) =>
      ⟨some (.fatal ("Donwload error:  " ++ err)), [.Download srcBucket srcKey buf], w1⟩
    | (.ok stored, w1) =>
      let file := writeAt buf stored
      match svc.Decode file with
      | .error err =>
        ⟨some (.fatal ("Decode error: " ++ err)),
          [.Download srcBucket srcKey buf, .Decode file], w1⟩
      | .ok img =>
        let resizedImg := svc.Resize 300 0 img .Lanczos3
        match svc.Encode resizedImg 50 with
        | .error err =>
          ⟨some (.fatal ("Encode error: " ++ err)),
            [.Download srcBucket srcKey buf, .Decode file,
              .Resize 300 0 img .Lanczos3, .Encode resizedImg 50], w1⟩
        | .ok imgBody =>
          match svc.Upload w1 dstBucket srcKey imgBody with
          | (.error err, w2) =>
            ⟨some (.fatal ("Upload error: " ++ err)),
              [.Download srcBucket srcKey buf, .Decode file,
                .Resize 300 0 img .Lanczos3, .Encode resizedImg 50,
                .Upload dstBucket srcKey imgBody], w2⟩
          | (.ok _, w2) =>
            ⟨none,
              [.Download srcBucket srcKey buf, .Decode file,
                .Resize 300 0 img .Lanczos3, .Encode resizedImg 50,
                .Upload dstBucket srcKey imgBody], w2⟩

/-- The loop of `Handler` over the records, followed by the final
`return "Resize successful", nil`. -/
def Handler.loop (svc : Services W Img) (dstBucket : String) :
    W → List S3EventRecord → Run W Img
  | w, [] => ⟨.returned "Resize successful" none, [], w⟩
  | w, record :: rest =>
    match processRecord svc dstBucket w record with
    | ⟨some stop, tr, w1⟩ => ⟨stop, tr, w1⟩
    | ⟨none, tr, w1⟩ =>
      let r := Handler.loop svc dstBucket w1 rest
      ⟨r.outcome, tr ++ r.trace, r.world⟩

/-- Function `Handler` of `image_resize_golang/main.go`.  `environ` is the
process environment, `w` the world at the start of the invocation.  (Creating
the session and the S3 client performs no request.) -/
def Handler (svc : Services W Img) (environ : String → Option String) (w : W)
    (event : S3Event) : Run W Img :=
  let dstBucket := Getenv environ "DestBucket"
  Handler.loop svc dstBucket w event.Records

/-! ## Observations on traces -/

/-- A request against object storage: its kind and its target. -/
inductive Request
  | fetch (bucket key : String)
  | write (bucket key : String)
  deriving DecidableEq, Repr

/-- The requests against object storage in a trace, in order. -/
def requests : List (Call Img) → List Request
  | [] => []
  | .Download bucket key _ :: cs => .fetch bucket key :: requests cs
  | .Upload bucket key _ :: cs => .write bucket key :: requests cs
  | _ :: cs => requests cs

/-- The writes (container, key, body) in a trace, in order. -/
def writes : List (Call Img) → List (String × String × List Nat)
  | [] => []
  | .Upload bucket key body :: cs => (bucket, key, body) :: writes cs
  | _ :: cs => writes cs

/-! ## Success and failure of the steps of a record -/

/-- The steps of the loop body that end in `log.Fatalln` when they fail. -/
inductive Step
  | fetch
  | decode
  | encode
  | write
  deriving DecidableEq, Repr

/-- The buffer of `record` was allocated and its fetch from world `w` succeeded,
leaving the bytes `file` in the buffer and the world `w1`. -/
def Fetched (svc : Services W Img) (w : W) (record : S3EventRecord)
    (file : List Nat) (w1 : W) : Prop :=
  ∃ buf stored, makeBytes svc.maxAlloc record.S3.Object.Size = some buf ∧
    svc.Download w record.S3.Bucket.Name record.S3.Object.Key buf = (.ok stored, w1) ∧
    file = writeAt buf stored

/-- Decoding `file`, resizing and encoding succeeded and gave the bytes `body`. -/
def Transcoded (svc : Services W Img) (file body : List Nat) : Prop :=
  ∃ img, svc.Decode file = .ok img ∧
    svc.Encode (svc.Resize 300 0 img .Lanczos3) 50 = .ok body

/-- Every step of `record` succeeds from world `w`, leaving world `w2`. -/
def RecordSucceeds (svc : Services W Img) (dstBucket : String) (w : W)
    (record : S3EventRecord) (w2 : W) : Prop :=
  ∃ file w1 body, Fetched svc w record file w1 ∧ Transcoded svc file body ∧
    svc.Upload w1 dstBucket record.S3.Object.Key body = (.ok (), w2)

/-- Every step of every record of the batch succeeds, the records being
processed in order from world `w`, leaving world `w2`. -/
inductive AllSucceed (svc : Services W Img) (dstBucket : String) :
    W → List S3EventRecord → W → Prop
  | nil (w : W) : AllSucceed svc dstBucket w [] w
  | cons {w w1 w2 : W} {record : S3EventRecord} {rest : List S3EventRecord} :
      RecordSucceeds svc dstBucket w record w1 → AllSucceed svc dstBucket w1 rest w2 →
      AllSucceed svc dstBucket w (record :: rest) w2

/-- The steps of `record` before `step` succeed from world `w` and `step` fails. -/
def FailsAt (svc : Services W Img) (dstBucket : String) (w : W)
    (record : S3EventRecord) : Step → Prop
  | .fetch => ∃ buf err w1, makeBytes svc.maxAlloc record.S3.Object.Size = some buf ∧
      svc.Download w record.S3.Bucket.Name record.S3.Object.Key buf = (.error err, w1)
  | .decode => ∃ file w1 err, Fetched svc w record file w1 ∧ svc.Decode file = .error err
  | .encode => ∃ file w1 img err, Fetched svc w record file w1 ∧ svc.Decode file = .ok img ∧
      svc.Encode (svc.Resize 300 0 img .Lanczos3) 50 = .error err
  | .write => ∃ file w1 body err w2, Fetched svc w record file w1 ∧
      Transcoded svc file body ∧
      svc.Upload w1 dstBucket record.S3.Object.Key body = (.error err, w2)

/-- The fetch and the write of each record of a batch, in batch order. -/
def batchRequests (dstBucket : String) (records : List S3EventRecord) : List Request :=
  records.flatMap fun r =>
    [.fetch r.S3.Bucket.Name r.S3.Object.Key, .write dstBucket r.S3.Object.Key]

/-! ## A small concrete instance of the services

Used to evaluate the handler on concrete inputs.  The store is an association
list; an "image" is a pair of dimensions stored big-endian in four bytes. -/

/-- A toy object store. -/
abbrev ToyStore := List ((String × String) × List Nat)

/-- A toy image: its width and height. -/
structure ToyImg where
  width : Nat
  height : Nat
  deriving DecidableEq, Repr

/-- Toy download: the object is written with one `WriteAt` at offset 0.  An
object that fits in the buffer is stored in its memory; for a longer object the
`WriteAtBuffer` moves to a fresh buffer of its own and nothing is stored in the
memory of the buffer it was handed. -/
def toyDownload (w : ToyStore) (bucket key : String) (buf : List Nat) :
    Except String (List Nat) × ToyStore :=
  match w.lookup (bucket, key) with
  | none => (.error "NoSuchKey", w)
  | some bytes => if bytes.length ≤ buf.length then (.ok bytes, w) else (.ok [], w)

def toyDecode : List Nat → Except String ToyImg
  | a :: b :: c :: d :: _ =>
    if a * 256 + b = 0 ∨ c * 256 + d = 0 then .error "image: unknown format"
    else .ok ⟨a * 256 + b, c * 256 + d⟩
  | _ => .error "image: unknown format"

def toyResize (width height : Nat) (img : ToyImg) (_interp : InterpolationFunction) : ToyImg :=
  if height = 0 then ⟨width, img.height * width / img.width⟩ else ⟨width, height⟩

def toyEncode (img : ToyImg) (quality : Nat) : Except String (List Nat) :=
  if 65536 ≤ img.width ∨ 65536 ≤ img.height ∨ img.height = 0 then
    .error "jpeg: image is too large to encode"
  else .ok [img.width / 256, img.width % 256, img.height / 256, img.height % 256, quality]

def toyUpload (w : ToyStore) (bucket key : String) (body : List Nat) :
    Except String Unit × ToyStore :=
  if bucket = "" then (.error "InvalidParameter", w)
  else (.ok (), ((bucket, key), body) :: w)

/-- The toy services. -/
def toy : Services ToyStore ToyImg where
  maxAlloc := 1024
  Download := toyDownload
  Decode := toyDecode
  Resize := toyResize
  Encode := toyEncode
  Upload := toyUpload

/-- A record naming `bucket`, `key` and a declared size. -/
def mkRecord (bucket key : String) (size : Int) : S3EventRecord :=
  ⟨⟨⟨bucket⟩, ⟨key, size⟩⟩⟩

/-- An environment in which `DestBucket` is `dst`. -/
def demoEnviron : String → Option String :=
  fun key => if key = "DestBucket" then some "dst" else none

/-- A store with a 600x400 image (and two more bytes), a 900x300 image, and an
object that is not an image. -/
def demoStore : ToyStore :=
  [(("src", "cat.png"), [2, 88, 1, 144, 7, 7]), (("src", "dog.png"), [3, 132, 1, 44]),
    (("src", "notes.txt"), [104, 105])]

/-- A batch of two records for the two images of `demoStore`. -/
def demoEvent : S3Event :=
  ⟨[mkRecord "src" "cat.png" 6, mkRecord "src" "dog.png" 4]⟩

/-- A store in which the destination container `thumbs` already holds an object
under the key of a source object. -/
def aliasStore : ToyStore :=
  [(("src", "dog.png"), [3, 132, 1, 44]), (("thumbs", "dog.png"), [2, 88, 1, 144])]

/-- An environment in which `DestBucket` is `thumbs`. -/
def aliasEnviron : String → Option String :=
  fun key => if key = "DestBucket" then some "thumbs" else none

/-- The services behave like an object store as far as fetches go: the bytes
that a fetch of an object yields after an earlier fetch, or after an earlier
write to another (container, key), are the bytes that the fetch yields without
that earlier call. -/
def StoreLike (svc : Services W Img) : Prop :=
  (∀ w b0 k0 buf0 b k buf stored,
    (svc.Download (svc.Download w b0 k0 buf0).2 b k buf).1 = .ok stored →
    (svc.Download w b k buf).1 = .ok stored) ∧
  (∀ w b0 k0 body b k buf stored, (b0, k0) ≠ (b, k) →
    (svc.Download (svc.Upload w b0 k0 body).2 b k buf).1 = .ok stored →
    (svc.Download w b k buf).1 = .ok stored)

end ImageResize

namespace HelloWorld

/-! ## The hello-world API handler (`hello-world-golang/main.go`) -/

/-- Type `events.APIGatewayProxyRequestContext` (the handler reads `RequestID`). -/
structure APIGatewayProxyRequestContext where
  AccountID : String
  ResourceID : String
  Stage : String
  RequestID : String
  ResourcePath : String
  HTTPMethod : String
  APIID : String
  deriving DecidableEq, Repr

/-- Type `events.APIGatewayProxyRequest`. -/
structure APIGatewayProxyRequest where
  Resource : String
  Path : String
  HTTPMethod : String
  Headers : Option (List (String × String))
  MultiValueHeaders : Option (List (String × List String))
  QueryStringParameters : Option (List (String × String))
  MultiValueQueryStringParameters : Option (List (String × List String))
  PathParameters : Option (List (String × String))
  StageVariables : Option (List (String × String))
  RequestContext : APIGatewayProxyRequestContext
  Body : String
  IsBase64Encoded : Bool
  deriving DecidableEq, Repr

/-- Type `events.APIGatewayProxyResponse`; a nil map is `none`. -/
structure APIGatewayProxyResponse where
  StatusCode : Int
  Headers : Option (List (String × String))
  MultiValueHeaders : Option (List (String × List String))
  Body : String
  IsBase64Encoded : Bool
  deriving DecidableEq, Repr

/-- Type `body` of `main.go`: `Message string` with the JSON key `message`. -/
structure body where
  Message : String
  deriving DecidableEq, Repr

/-- Lower-case hexadecimal digit of `n % 16`. -/
def hexDigit (n : Nat) : Char :=
  "0123456789abcdef".toList.getD (n % 16) (Char.ofNat 48)

/-- One character of a string as `encoding/json` writes it inside a quoted
string (HTML escaping on, as `json.Marshal` has it). -/
def escapeChar (c : Char) : String :=
  let n := c.toNat
  if n = 34 then "\\\""
  else if n = 92 then "\\\\"
  else if n = 8 then "\\b"
  else if n = 12 then "\\f"
  else if n = 10 then "\\n"
  else if n = 13 then "\\r"
  else if n = 9 then "\\t"
  else if n < 32 ∨ n = 60 ∨ n = 62 ∨ n = 38 then
    "\\u00" ++ String.mk [hexDigit (n / 16), hexDigit n]
  else if n = 8232 then "\\u2028"
  else if n = 8233 then "\\u2029"
  else String.mk [c]

/-- A Go string as a JSON string literal. -/
def quote (s : String) : String :=
  "\"" ++ String.join (s.toList.map escapeChar) ++ "\""

/-- Call `json.Marshal(v)` for `v` of type `body`: the bytes and the error. -/
def Marshal (v : body) : String × Option String :=
  ("\x7b" ++ quote "message" ++ ":" ++ quote v.Message ++ "\x7d", none)

/-- What a call of the handler produces: the two results and the lines logged. -/
structure Result where
  response : APIGatewayProxyResponse
  err : Option String
  logged : List String
  deriving DecidableEq, Repr

/-- Function `Handler` of `hello-world-golang/main.go`. -/
def Handler (request : APIGatewayProxyRequest) : Result :=
  let b := (Marshal ⟨"Hello World!"⟩).1
  { response :=
      { Body := b, StatusCode := 200, Headers := none, MultiValueHeaders := none,
        IsBase64Encoded := false }
    err := none
    logged := ["Lambda request " ++ request.RequestContext.RequestID] }

end HelloWorld

namespace ImageResize

variable {W Img : Type}

/-! ## Lemmas on the loop -/

theorem requests_append (xs ys : List (Call Img)) :
    requests (xs ++ ys) = requests xs ++ requests ys := by
  induction xs with
  | nil => rfl
  | cons c cs ih => cases c <;> simp [requests, ih]

theorem writes_append (xs ys : List (Call Img)) :
    writes (xs ++ ys) = writes xs ++ writes ys := by
  induction xs with
  | nil => rfl
  | cons c cs ih => cases c <;> simp [writes, ih]

/-- A record whose steps all succeed: the loop body makes the five calls and
falls through. -/
theorem processRecord_of_succeeds {svc : Services W Img} {dstBucket : String} {w w2 : W}
    {record : S3EventRecord} (h : RecordSucceeds svc dstBucket w record w2) :
    ∃ buf stored img body,
      makeBytes svc.maxAlloc record.S3.Object.Size = some buf ∧
      svc.Decode (writeAt buf stored) = .ok img ∧
      svc.Encode (svc.Resize 300 0 img .Lanczos3) 50 = .ok body ∧
      processRecord svc dstBucket w record =
        ⟨none, [.Download record.S3.Bucket.Name record.S3.Object.Key buf,
          .Decode (writeAt buf stored), .Resize 300 0 img .Lanczos3,
          .Encode (svc.Resize 300 0 img .Lanczos3) 50,
          .Upload dstBucket record.S3.Object.Key body], w2⟩ := by
  obtain ⟨file, w1, body, ⟨buf, stored, hbuf, hdl, rfl⟩, ⟨img, hdec, henc⟩, hup⟩ := h
  refine ⟨buf, stored, img, body, hbuf, hdec, henc, ?_⟩
  simp [processRecord, hbuf, hdl, hdec, henc, hup]

/-- Unfolding of the loop at a record whose steps all succeed. -/
theorem loop_cons_of_succeeds {svc : Services W Img} {dstBucket : String} {w w1 : W}
    {record : S3EventRecord} (h : RecordSucceeds svc dstBucket w record w1)
    (rest : List S3EventRecord) :
    Handler.loop svc dstBucket w (record :: rest) =
      ⟨(Handler.loop svc dstBucket w1 rest).outcome,
        (processRecord svc dstBucket w record).trace ++
          (Handler.loop svc dstBucket w1 rest).trace,
        (Handler.loop svc dstBucket w1 rest).world⟩ := by
  obtain ⟨buf, stored, img, body, -, -, -, hp⟩ := processRecord_of_succeeds h
  simp [Handler.loop, hp]

/-- A batch whose steps all succeed followed by more records: the loop runs the
batch, then goes on from the world it reached. -/
theorem loop_append_of_succeed {svc : Services W Img} {dstBucket : String} {w w1 : W}
    {pre : List S3EventRecord} (h : AllSucceed svc dstBucket w pre w1)
    (rest : List S3EventRecord) :
    Handler.loop svc dstBucket w (pre ++ rest) =
      ⟨(Handler.loop svc dstBucket w1 rest).outcome,
        (Handler.loop svc dstBucket w pre).trace ++
          (Handler.loop svc dstBucket w1 rest).trace,
        (Handler.loop svc dstBucket w1 rest).world⟩ := by
  induction h with
  | nil w => simp [Handler.loop]
  | cons hr _ ih =>
    rw [List.cons_append, loop_cons_of_succeeds hr, loop_cons_of_succeeds hr, ih]
    simp

/-- A batch whose steps all succeed: the loop reaches the final return. -/
theorem loop_of_succeed {svc : Services W Img} {dstBucket : String} {w w1 : W}
    {records : List S3EventRecord} (h : AllSucceed svc dstBucket w records w1) :
    (Handler.loop svc dstBucket w records).outcome = .returned "Resize successful" none ∧
    (Handler.loop svc dstBucket w records).world = w1 ∧
    requests (Handler.loop svc dstBucket w records).trace = batchRequests dstBucket records := by
  induction h with
  | nil w => simp [Handler.loop, requests, batchRequests]
  | cons hr _ ih =>
    obtain ⟨buf, stored, img, body, -, -, -, hp⟩ := processRecord_of_succeeds hr
    rw [loop_cons_of_succeeds hr, hp]
    refine ⟨ih.1, ih.2.1, ?_⟩
    simp only [requests_append, ih.2.2]
    simp [requests, batchRequests]

/-- The three ways a pass through the loop body ends: `log.Fatalln`, a panic of
the allocation before any call, or falling through after every step succeeded. -/
theorem processRecord_abort (svc : Services W Img) (dstBucket : String) (w : W)
    (record : S3EventRecord) :
    (∃ msg, (processRecord svc dstBucket w record).abort = some (.fatal msg)) ∨
    (∃ msg, (processRecord svc dstBucket w record).abort = some (.panicked msg)) ∨
    ((processRecord svc dstBucket w record).abort = none ∧
      RecordSucceeds svc dstBucket w record (processRecord svc dstBucket w record).world) := by
  cases hbuf : makeBytes svc.maxAlloc record.S3.Object.Size with
  | none => exact .inr (.inl ⟨_, by simp [processRecord, hbuf]; rfl⟩)
  | some buf =>
    rcases hdl : svc.Download w record.S3.Bucket.Name record.S3.Object.Key buf
      with ⟨e | stored, w1⟩
    · exact .inl ⟨_, by simp [processRecord, hbuf, hdl]; rfl⟩
    · cases hdec : svc.Decode (writeAt buf stored) with
      | error e => exact .inl ⟨_, by simp [processRecord, hbuf, hdl, hdec]; rfl⟩
      | ok img =>
        cases henc : svc.Encode (svc.Resize 300 0 img .Lanczos3) 50 with
        | error e => exact .inl ⟨_, by simp [processRecord, hbuf, hdl, hdec, henc]; rfl⟩
        | ok body =>
          rcases hup : svc.Upload w1 dstBucket record.S3.Object.Key body with ⟨e | u, w2⟩
          · exact .inl ⟨_, by simp [processRecord, hbuf, hdl, hdec, henc, hup]; rfl⟩
          · refine .inr (.inr ⟨by simp [processRecord, hbuf, hdl, hdec, henc, hup], ?_⟩)
            have hw : (processRecord svc dstBucket w record).world = w2 := by
              simp [processRecord, hbuf, hdl, hdec, henc, hup]
            rw [hw]
            exact ⟨_, w1, body, ⟨buf, stored, hbuf, hdl, rfl⟩, ⟨img, hdec, henc⟩, hup⟩

/-- The loop body never ends the invocation by a return. -/
theorem processRecord_abort_ne_returned (svc : Services W Img) (dstBucket : String) (w : W)
    (record : S3EventRecord) (value : String) (err : Option String) :
    (processRecord svc dstBucket w record).abort ≠ some (.returned value err) := by
  rcases processRecord_abort svc dstBucket w record with ⟨m, h⟩ | ⟨m, h⟩ | ⟨h, -⟩ <;>
    simp [h]

/-- A pass through the loop body that falls through: every step succeeded. -/
theorem succeeds_of_abort_none {svc : Services W Img} {dstBucket : String} {w : W}
    {record : S3EventRecord} (h : (processRecord svc dstBucket w record).abort = none) :
    RecordSucceeds svc dstBucket w record (processRecord svc dstBucket w record).world := by
  rcases processRecord_abort svc dstBucket w record with ⟨m, h1⟩ | ⟨m, h1⟩ | ⟨-, h1⟩
  · simp [h1] at h
  · simp [h1] at h
  · exact h1

/-- Unfolding of the loop at a record whose pass does not fall through. -/
theorem loop_cons_of_abort {svc : Services W Img} {dstBucket : String} {w : W}
    {record : S3EventRecord} {stop : Outcome}
    (h : (processRecord svc dstBucket w record).abort = some stop)
    (rest : List S3EventRecord) :
    Handler.loop svc dstBucket w (record :: rest) =
      ⟨stop, (processRecord svc dstBucket w record).trace,
        (processRecord svc dstBucket w record).world⟩ := by
  rcases hp : processRecord svc dstBucket w record with ⟨ab, tr, w1⟩
  rw [hp] at h
  simp only at h
  subst h
  simp [Handler.loop, hp]

/-- The loop reaches the final return exactly on the batches whose steps all
succeed. -/
theorem succeed_of_returned {svc : Services W Img} {dstBucket : String} {w : W}
    {records : List S3EventRecord} {value : String} {err : Option String}
    (h : (Handler.loop svc dstBucket w records).outcome = .returned value err) :
    AllSucceed svc dstBucket w records (Handler.loop svc dstBucket w records).world := by
  induction records generalizing w with
  | nil => exact .nil w
  | cons record rest ih =>
    cases hab : (processRecord svc dstBucket w record).abort with
    | some stop =>
      rw [loop_cons_of_abort hab] at h
      simp only at h
      subst h
      exact absurd hab (processRecord_abort_ne_returned svc dstBucket w record value err)
    | none =>
      have hr := succeeds_of_abort_none hab
      rw [loop_cons_of_succeeds hr] at h ⊢
      exact .cons hr (ih h)

/-- The value returned by the loop, when it returns. -/
theorem loop_returned {svc : Services W Img} {dstBucket : String} {w : W}
    {records : List S3EventRecord} {value : String} {err : Option String}
    (h : (Handler.loop svc dstBucket w records).outcome = .returned value err) :
    value = "Resize successful" ∧ err = none := by
  have hs := (loop_of_succeed (succeed_of_returned h)).1
  rw [hs] at h
  injection h with h1 h2
  exact ⟨h1.symm, h2.symm⟩

/-- A record with a failing step: the pass ends in `log.Fatalln` after the fetch
and, only when the failing step is the write, the write. -/
theorem processRecord_of_fails {svc : Services W Img} {dstBucket : String} {w : W}
    {record : S3EventRecord} {step : Step} (h : FailsAt svc dstBucket w record step) :
    (∃ msg, (processRecord svc dstBucket w record).abort = some (.fatal msg)) ∧
    requests (processRecord svc dstBucket w record).trace =
      .fetch record.S3.Bucket.Name record.S3.Object.Key ::
        (if step = .write then [.write dstBucket record.S3.Object.Key] else []) := by
  cases step with
  | fetch =>
    obtain ⟨buf, err, w1, hbuf, hdl⟩ := h
    exact ⟨⟨_, by simp [processRecord, hbuf, hdl]; rfl⟩,
      by simp [processRecord, hbuf, hdl, requests]⟩
  | decode =>
    obtain ⟨file, w1, err, ⟨buf, stored, hbuf, hdl, rfl⟩, hdec⟩ := h
    exact ⟨⟨_, by simp [processRecord, hbuf, hdl, hdec]; rfl⟩,
      by simp [processRecord, hbuf, hdl, hdec, requests]⟩
  | encode =>
    obtain ⟨file, w1, img, err, ⟨buf, stored, hbuf, hdl, rfl⟩, hdec, henc⟩ := h
    exact ⟨⟨_, by simp [processRecord, hbuf, hdl, hdec, henc]; rfl⟩,
      by simp [processRecord, hbuf, hdl, hdec, henc, requests]⟩
  | write =>
    obtain ⟨file, w1, body, err, w2, ⟨buf, stored, hbuf, hdl, rfl⟩, ⟨img, hdec, henc⟩, hup⟩ := h
    exact ⟨⟨_, by simp [processRecord, hbuf, hdl, hdec, henc, hup]; rfl⟩,
      by simp [processRecord, hbuf, hdl, hdec, henc, hup, requests]⟩

/-- Length of the buffer of the handler after a download. -/
theorem length_writeAt (file stored : List Nat) :
    (writeAt file stored).length = file.length := by
  simp only [writeAt, List.length_append, List.length_take, List.length_drop]
  omega

/-- Bytes of a zeroed buffer after a download: the stored byte where there is
one, zero elsewhere. -/
theorem getD_writeAt_replicate (n : Nat) (stored : List Nat) (i : Nat) (hi : i < n) :
    (writeAt (List.replicate n 0) stored).getD i 0 = stored.getD i 0 := by
  simp only [writeAt, List.length_replicate, List.drop_replicate]
  by_cases hs : i < stored.length
  · have h1 : i < (stored.take n).length := by
      simp only [List.length_take]
      omega
    rw [List.getD_append _ _ _ _ h1]
    simp [List.getD_eq_getElem?_getD, List.getElem?_take, hi]
  · have h1 : (stored.take n).length ≤ i := by
      simp only [List.length_take]
      omega
    rw [List.getD_append_right _ _ _ _ h1]
    have h2 : stored.length ≤ i := by omega
    simp only [List.getD_eq_getElem?_getD, List.getElem?_eq_none h2, List.getElem?_replicate]
    split <;> rfl

/-- What `make([]byte, n)` yields when it does not panic. -/
theorem makeBytes_eq_some {maxAlloc : Nat} {size : Int} {buf : List Nat}
    (h : makeBytes maxAlloc size = some buf) :
    0 ≤ size ∧ size ≤ maxAlloc ∧ buf = List.replicate size.toNat 0 := by
  unfold makeBytes at h
  split at h
  · simp at h
  · rename_i hn
    simp only [Option.some.injEq] at h
    refine ⟨by omega, by omega, h.symm⟩

/-- The calls of the loop on a non-empty batch start with those of the pass
for its first record. -/
theorem loop_cons_trace (svc : Services W Img) (dstBucket : String) (w : W)
    (record : S3EventRecord) (rest : List S3EventRecord) :
    ∃ more, (Handler.loop svc dstBucket w (record :: rest)).trace =
      (processRecord svc dstBucket w record).trace ++ more := by
  cases hab : (processRecord svc dstBucket w record).abort with
  | some stop => exact ⟨[], by rw [loop_cons_of_abort hab]; simp⟩
  | none => exact ⟨_, by rw [loop_cons_of_succeeds (succeeds_of_abort_none hab)]⟩

/-- After a successful fetch the pass calls the decoder on the buffer. -/
theorem processRecord_trace_of_fetched (svc : Services W Img) (dstBucket : String) (w w1 : W)
    (record : S3EventRecord) (buf stored : List Nat)
    (hbuf : makeBytes svc.maxAlloc record.S3.Object.Size = some buf)
    (hdl : svc.Download w record.S3.Bucket.Name record.S3.Object.Key buf = (.ok stored, w1)) :
    ∃ rest, (processRecord svc dstBucket w record).trace =
      .Download record.S3.Bucket.Name record.S3.Object.Key buf ::
        .Decode (writeAt buf stored) :: rest := by
  cases hdec : svc.Decode (writeAt buf stored) with
  | error e => exact ⟨_, by simp [processRecord, hbuf, hdl, hdec]; rfl⟩
  | ok img =>
    cases henc : svc.Encode (svc.Resize 300 0 img .Lanczos3) 50 with
    | error e => exact ⟨_, by simp [processRecord, hbuf, hdl, hdec, henc]; rfl⟩
    | ok body =>
      rcases hup : svc.Upload w1 dstBucket record.S3.Object.Key body with ⟨e | u, w2⟩
      · exact ⟨_, by simp [processRecord, hbuf, hdl, hdec, henc, hup]; rfl⟩
      · exact ⟨_, by simp [processRecord, hbuf, hdl, hdec, henc, hup]; rfl⟩

/-- The requests of one pass: nothing, the fetch, or the fetch and the write to
the destination bucket under the key of the record. -/
theorem processRecord_requests (svc : Services W Img) (dstBucket : String) (w : W)
    (record : S3EventRecord) :
    requests (processRecord svc dstBucket w record).trace = [] ∨
    requests (processRecord svc dstBucket w record).trace =
      [.fetch record.S3.Bucket.Name record.S3.Object.Key] ∨
    requests (processRecord svc dstBucket w record).trace =
      [.fetch record.S3.Bucket.Name record.S3.Object.Key,
        .write dstBucket record.S3.Object.Key] := by
  cases hbuf : makeBytes svc.maxAlloc record.S3.Object.Size with
  | none => exact .inl (by simp [processRecord, hbuf, requests])
  | some buf =>
    rcases hdl : svc.Download w record.S3.Bucket.Name record.S3.Object.Key buf
      with ⟨e | stored, w1⟩
    · exact .inr (.inl (by simp [processRecord, hbuf, hdl, requests]))
    · cases hdec : svc.Decode (writeAt buf stored) with
      | error e => exact .inr (.inl (by simp [processRecord, hbuf, hdl, hdec, requests]))
      | ok img =>
        cases henc : svc.Encode (svc.Resize 300 0 img .Lanczos3) 50 with
        | error e =>
          exact .inr (.inl (by simp [processRecord, hbuf, hdl, hdec, henc, requests]))
        | ok body =>
          rcases hup : svc.Upload w1 dstBucket record.S3.Object.Key body with ⟨e | u, w2⟩
          · exact .inr (.inr (by simp [processRecord, hbuf, hdl, hdec, henc, hup, requests]))
          · exact .inr (.inr (by simp [processRecord, hbuf, hdl, hdec, henc, hup, requests]))

/-- Every write the loop requests goes to the destination bucket. -/
theorem loop_write_bucket (svc : Services W Img) (dstBucket : String) (w : W)
    (records : List S3EventRecord) (bucket key : String)
    (h : Request.write bucket key ∈ requests (Handler.loop svc dstBucket w records).trace) :
    bucket = dstBucket := by
  induction records generalizing w with
  | nil => simp [Handler.loop, requests] at h
  | cons record rest ih =>
    have hpass : Request.write bucket key ∈
        requests (processRecord svc dstBucket w record).trace → bucket = dstBucket := by
      intro hm
      rcases processRecord_requests svc dstBucket w record with hq | hq | hq <;>
        rw [hq] at hm <;> simp at hm
      exact hm.1
    cases hab : (processRecord svc dstBucket w record).abort with
    | some stop =>
      rw [loop_cons_of_abort hab] at h
      exact hpass h
    | none =>
      rw [loop_cons_of_succeeds (succeeds_of_abort_none hab)] at h
      simp only [requests_append, List.mem_append] at h
      rcases h with h | h
      · exact hpass h
      · exact ih _ h

/-- Once the buffer is allocated the pass starts with the download. -/
theorem processRecord_trace_of_alloc (svc : Services W Img) (dstBucket : String) (w : W)
    (record : S3EventRecord) (buf : List Nat)
    (hbuf : makeBytes svc.maxAlloc record.S3.Object.Size = some buf) :
    ∃ rest, (processRecord svc dstBucket w record).trace =
      .Download record.S3.Bucket.Name record.S3.Object.Key buf :: rest := by
  rcases hdl : svc.Download w record.S3.Bucket.Name record.S3.Object.Key buf
    with ⟨e | stored, w1⟩
  · exact ⟨[], by simp [processRecord, hbuf, hdl]⟩
  · obtain ⟨rest, hrest⟩ := processRecord_trace_of_fetched svc dstBucket w w1 record buf
      stored hbuf hdl
    exact ⟨_, hrest⟩

/-- Value of `os.Getenv("DestBucket")` when the variable is unset or empty. -/
theorem Getenv_of_unset {environ : String → Option String}
    (h : environ "DestBucket" = none ∨ environ "DestBucket" = some "") :
    Getenv environ "DestBucket" = "" := by
  rcases h with h | h <;> simp [Getenv, h]

/-- The writes of the pass for a record whose steps all succeed. -/
theorem writes_processRecord_of_succeeds {svc : Services W Img} {dstBucket : String}
    {w w2 : W} {record : S3EventRecord} (h : RecordSucceeds svc dstBucket w record w2) :
    ∃ body, writes (processRecord svc dstBucket w record).trace =
      [(dstBucket, record.S3.Object.Key, body)] := by
  obtain ⟨buf, stored, img, body, -, -, -, hp⟩ := processRecord_of_succeeds h
  exact ⟨body, by rw [hp]; simp [writes]⟩

/-- A batch whose steps all succeed has one write per record. -/
theorem length_writes_of_succeed {svc : Services W Img} {dstBucket : String} {w w1 : W}
    {records : List S3EventRecord} (h : AllSucceed svc dstBucket w records w1) :
    (writes (Handler.loop svc dstBucket w records).trace).length = records.length := by
  induction h with
  | nil w => simp [Handler.loop, writes]
  | cons hr _ ih =>
    obtain ⟨body, hb⟩ := writes_processRecord_of_succeeds hr
    rw [loop_cons_of_succeeds hr]
    simp [writes_append, hb, ih]

/-- In a store-like world, the bytes a fetch of (bucket, key) yields after one
record was processed are those it yields before, unless that record wrote to
(bucket, key). -/
theorem read_after_record {svc : Services W Img} (hstore : StoreLike svc)
    {dstBucket : String} {w w1 : W} {record : S3EventRecord}
    (hr : RecordSucceeds svc dstBucket w record w1) (bucket key : String)
    (hne : (dstBucket, record.S3.Object.Key) ≠ (bucket, key)) (buf stored : List Nat)
    (hok : (svc.Download w1 bucket key buf).1 = .ok stored) :
    (svc.Download w bucket key buf).1 = .ok stored := by
  obtain ⟨file, wd, body, ⟨buf0, stored0, -, hdl, -⟩, -, hup⟩ := hr
  have h1 : wd = (svc.Download w record.S3.Bucket.Name record.S3.Object.Key buf0).2 := by
    rw [hdl]
  have h2 : w1 = (svc.Upload wd dstBucket record.S3.Object.Key body).2 := by
    rw [hup]
  rw [h2] at hok
  have h3 := hstore.2 wd _ _ body bucket key buf stored hne hok
  rw [h1] at h3
  exact hstore.1 w _ _ buf0 bucket key buf stored h3

/-- In a store-like world, the bytes a fetch of (bucket, key) yields after a
batch was processed are those it yields before, unless a record of the batch
wrote to (bucket, key). -/
theorem read_after_batch {svc : Services W Img} (hstore : StoreLike svc)
    {dstBucket : String} {w w1 : W} {records : List S3EventRecord}
    (h : AllSucceed svc dstBucket w records w1) (bucket key : String)
    (hne : ∀ r ∈ records, (dstBucket, r.S3.Object.Key) ≠ (bucket, key))
    (buf stored : List Nat)
    (hok : (svc.Download w1 bucket key buf).1 = .ok stored) :
    (svc.Download w bucket key buf).1 = .ok stored := by
  induction h with
  | nil w => exact hok
  | cons hr _ ih =>
    exact read_after_record hstore hr bucket key (hne _ (List.mem_cons_self _ _)) buf stored
      (ih (fun r hm => hne r (List.mem_cons_of_mem _ hm)) hok)

/-- The toy services are store-like. -/
theorem toy_storeLike : StoreLike toy := by
  constructor
  · intro w b0 k0 buf0 b k buf stored hok
    have h : (toyDownload w b0 k0 buf0).2 = w := by
      unfold toyDownload
      split
      · rfl
      · split <;> rfl
    have hok2 : (toyDownload (toyDownload w b0 k0 buf0).2 b k buf).1 = .ok stored := hok
    rw [h] at hok2
    exact hok2
  · intro w b0 k0 body b k buf stored hne hok
    have hok2 : (toyDownload (toyUpload w b0 k0 body).2 b k buf).1 = .ok stored := hok
    show (toyDownload w b k buf).1 = .ok stored
    unfold toyUpload at hok2
    split at hok2
    · exact hok2
    · have hb : ((b, k) == (b0, k0)) = false := by
        rw [beq_eq_false_iff_ne]
        exact fun h => hne h.symm
      simp only [toyDownload, List.lookup, hb] at hok2
      simp only [toyDownload]
      cases hl : List.lookup (b, k) w with
      | none => rw [hl] at hok2; exact hok2
      | some bytes =>
        rw [hl] at hok2
        dsimp only at hok2 ⊢
        split <;> rename_i hlen <;> simp only [hlen, if_true, if_false] at hok2 <;> exact hok2

/-! ## The claims -/

/-- C1: for every batch in which every step of every record succeeds, the
requests of the handler against object storage are, in this order, for each
record of the batch in batch order: one fetch of (source bucket of the record,
key of the record), then one write to (the value of `DestBucket`, key of the
record); there is no other request. -/
theorem Handler_requests_in_batch_order (svc : Services W Img)
    (environ : String → Option String) (w w1 : W) (event : S3Event)
    (h : AllSucceed svc (Getenv environ "DestBucket") w event.Records w1) :
    requests (Handler svc environ w event).trace =
      event.Records.flatMap fun r =>
        [.fetch r.S3.Bucket.Name r.S3.Object.Key,
          .write (Getenv environ "DestBucket") r.S3.Object.Key] :=
  (loop_of_succeed h).2.2

/-- C4: on a batch with zero records the handler returns "Resize successful"
with a nil error, makes no library call at all (so no fetch and no write) and
leaves the world as it was, whatever the services, environment and world. -/
theorem Handler_empty_batch (svc : Services W Img) (environ : String → Option String)
    (w : W) :
    (Handler svc environ w ⟨[]⟩).outcome = .returned "Resize successful" none ∧
    (Handler svc environ w ⟨[]⟩).trace = [] ∧
    (Handler svc environ w ⟨[]⟩).world = w :=
  ⟨rfl, rfl, rfl⟩

/-- C5: whenever the handler returns, it returns the string "Resize successful"
and a nil error; and it does return (that value) on every batch in which all
steps of all records succeed. -/
theorem Handler_return_value (svc : Services W Img) (environ : String → Option String)
    (w : W) (event : S3Event) :
    (∀ value err, (Handler svc environ w event).outcome = .returned value err →
      value = "Resize successful" ∧ err = none) ∧
    (∀ w1, AllSucceed svc (Getenv environ "DestBucket") w event.Records w1 →
      (Handler svc environ w event).outcome = .returned "Resize successful" none) :=
  ⟨fun _ _ h => loop_returned h, fun _ h => (loop_of_succeed h).1⟩

/-- Witness of C1 on the two-record batch `demoEvent`. -/
theorem Handler_requests_in_batch_order_witness :
    requests (Handler toy demoEnviron demoStore demoEvent).trace =
      [.fetch "src" "cat.png", .write "dst" "cat.png",
        .fetch "src" "dog.png", .write "dst" "dog.png"] :=
  Handler_requests_in_batch_order toy demoEnviron demoStore _ demoEvent
    (succeed_of_returned
      (show (Handler.loop toy "dst" demoStore demoEvent.Records).outcome =
        .returned "Resize successful" none from rfl))

/-- Witness of C5 on the two-record batch `demoEvent`. -/
theorem Handler_return_value_witness :
    (Handler toy demoEnviron demoStore demoEvent).outcome =
      .returned "Resize successful" none :=
  (Handler_return_value toy demoEnviron demoStore demoEvent).2 _
    (.cons ⟨_, _, _, ⟨_, _, rfl, rfl, rfl⟩, ⟨_, rfl, rfl⟩, rfl⟩
      (.cons ⟨_, _, _, ⟨_, _, rfl, rfl, rfl⟩, ⟨_, rfl, rfl⟩, rfl⟩ (.nil _)))

/-- C2: when the records before record k all succeed and a fetch, decode,
encode or write step of record k fails, the handler does not return: it ends
in `log.Fatalln`.  Its calls are those of the run on the records before k
(whose requests are the fetch and the write of each of them, in order)
followed by calls for record k only, among which the requests are the fetch of
record k and, only when the failing step is the write, that write.  Nothing is
requested for a later record. -/
theorem Handler_aborts_at_first_failure (svc : Services W Img)
    (environ : String → Option String) (w w1 : W) (pre : List S3EventRecord)
    (record : S3EventRecord) (post : List S3EventRecord) (step : Step)
    (hpre : AllSucceed svc (Getenv environ "DestBucket") w pre w1)
    (hfail : FailsAt svc (Getenv environ "DestBucket") w1 record step) :
    ∃ msg tail,
      (Handler svc environ w ⟨pre ++ record :: post⟩).outcome = .fatal msg ∧
      (Handler svc environ w ⟨pre ++ record :: post⟩).trace =
        (Handler svc environ w ⟨pre⟩).trace ++ tail ∧
      requests (Handler svc environ w ⟨pre⟩).trace =
        pre.flatMap (fun r =>
          [.fetch r.S3.Bucket.Name r.S3.Object.Key,
            .write (Getenv environ "DestBucket") r.S3.Object.Key]) ∧
      requests tail =
        .fetch record.S3.Bucket.Name record.S3.Object.Key ::
          (if step = .write then
            [.write (Getenv environ "DestBucket") record.S3.Object.Key] else []) := by
  obtain ⟨⟨msg, hab⟩, hreq⟩ := processRecord_of_fails hfail
  refine ⟨msg, (processRecord svc (Getenv environ "DestBucket") w1 record).trace, ?_, ?_,
    (loop_of_succeed hpre).2.2, hreq⟩
  · simp only [Handler]
    rw [loop_append_of_succeed hpre, loop_cons_of_abort hab]
  · simp only [Handler]
    rw [loop_append_of_succeed hpre, loop_cons_of_abort hab]

/-- Witness of C2: the second record of the batch names an object that is not
an image, so its decode step fails after the first record succeeded. -/
theorem Handler_aborts_at_first_failure_witness :
    ∃ msg tail,
      (Handler toy demoEnviron demoStore
        ⟨[mkRecord "src" "cat.png" 6] ++ mkRecord "src" "notes.txt" 2 ::
          [mkRecord "src" "dog.png" 4]⟩).outcome = .fatal msg ∧
      (Handler toy demoEnviron demoStore
        ⟨[mkRecord "src" "cat.png" 6] ++ mkRecord "src" "notes.txt" 2 ::
          [mkRecord "src" "dog.png" 4]⟩).trace =
        (Handler toy demoEnviron demoStore ⟨[mkRecord "src" "cat.png" 6]⟩).trace ++ tail ∧
      requests (Handler toy demoEnviron demoStore ⟨[mkRecord "src" "cat.png" 6]⟩).trace =
        [.fetch "src" "cat.png", .write "dst" "cat.png"] ∧
      requests tail = [.fetch "src" "notes.txt"] :=
  Handler_aborts_at_first_failure toy demoEnviron demoStore _ [mkRecord "src" "cat.png" 6]
    (mkRecord "src" "notes.txt" 2) [mkRecord "src" "dog.png" 4] .decode
    (.cons ⟨_, _, _, ⟨_, _, rfl, rfl, rfl⟩, ⟨_, rfl, rfl⟩, rfl⟩ (.nil _))
    ⟨_, _, _, ⟨_, _, rfl, rfl, rfl⟩, rfl⟩

/-- C6: for a record all of whose steps succeed (after records that all
succeeded), the calls made for it are exactly, in this order: the download into
the buffer, `Decode` of the buffer as the download left it, `Resize` of the
decoded image with width 300, height 0 and the Lanczos3 kernel, `Encode` of the
resized image with quality 50, and one `Upload` whose body is the output of
that `Encode`, to (the value of `DestBucket`, the key of the record). -/
theorem Handler_record_pipeline (svc : Services W Img)
    (environ : String → Option String) (w w1 w2 w3 : W) (pre : List S3EventRecord)
    (record : S3EventRecord) (post : List S3EventRecord)
    (buf stored body : List Nat) (img : Img)
    (hpre : AllSucceed svc (Getenv environ "DestBucket") w pre w1)
    (hbuf : makeBytes svc.maxAlloc record.S3.Object.Size = some buf)
    (hdl : svc.Download w1 record.S3.Bucket.Name record.S3.Object.Key buf = (.ok stored, w2))
    (hdec : svc.Decode (writeAt buf stored) = .ok img)
    (henc : svc.Encode (svc.Resize 300 0 img .Lanczos3) 50 = .ok body)
    (hup : svc.Upload w2 (Getenv environ "DestBucket") record.S3.Object.Key body =
      (.ok (), w3)) :
    (Handler svc environ w ⟨pre ++ record :: post⟩).trace =
      (Handler svc environ w ⟨pre⟩).trace ++
        [.Download record.S3.Bucket.Name record.S3.Object.Key buf,
          .Decode (writeAt buf stored),
          .Resize 300 0 img .Lanczos3,
          .Encode (svc.Resize 300 0 img .Lanczos3) 50,
          .Upload (Getenv environ "DestBucket") record.S3.Object.Key body] ++
        (Handler.loop svc (Getenv environ "DestBucket") w3 post).trace := by
  have hr : RecordSucceeds svc (Getenv environ "DestBucket") w1 record w3 :=
    ⟨_, w2, body, ⟨buf, stored, hbuf, hdl, rfl⟩, ⟨img, hdec, henc⟩, hup⟩
  simp only [Handler]
  rw [loop_append_of_succeed hpre, loop_cons_of_succeeds hr]
  simp [processRecord, hbuf, hdl, hdec, henc, hup]

/-- Witness of C6: the second record of `demoEvent`. -/
theorem Handler_record_pipeline_witness :
    (Handler toy demoEnviron demoStore
      ⟨[mkRecord "src" "cat.png" 6] ++ mkRecord "src" "dog.png" 4 :: []⟩).trace =
      (Handler toy demoEnviron demoStore ⟨[mkRecord "src" "cat.png" 6]⟩).trace ++
        [.Download "src" "dog.png" [0, 0, 0, 0],
          .Decode [3, 132, 1, 44],
          .Resize 300 0 ⟨900, 300⟩ .Lanczos3,
          .Encode ⟨300, 100⟩ 50,
          .Upload "dst" "dog.png" [1, 44, 0, 100, 50]] ++ [] :=
  Handler_record_pipeline toy demoEnviron demoStore _ _ _ [mkRecord "src" "cat.png" 6]
    (mkRecord "src" "dog.png" 4) [] [0, 0, 0, 0] [3, 132, 1, 44] [1, 44, 0, 100, 50] ⟨900, 300⟩
    (.cons ⟨_, _, _, ⟨_, _, rfl, rfl, rfl⟩, ⟨_, rfl, rfl⟩, rfl⟩ (.nil _))
    rfl rfl rfl rfl rfl

/-- C10: for a record (after records that all succeeded) whose declared size is
n >= 0, whose buffer is allocated and whose fetch succeeds, the download is
handed n zero bytes and the buffer then handed to the decoder has length
exactly n, whatever the length of what the download stored: byte i < n is the
stored byte i if there is one and zero otherwise.  For a negative declared size
the allocation panics and no call (so no fetch) is made for the record. -/
theorem Handler_decode_buffer (svc : Services W Img)
    (environ : String → Option String) (w w1 : W) (pre : List S3EventRecord)
    (record : S3EventRecord) (post : List S3EventRecord)
    (hpre : AllSucceed svc (Getenv environ "DestBucket") w pre w1) :
    (∀ (n : Nat) (buf stored : List Nat) (w2 : W),
      record.S3.Object.Size = (n : Int) →
      makeBytes svc.maxAlloc record.S3.Object.Size = some buf →
      svc.Download w1 record.S3.Bucket.Name record.S3.Object.Key buf = (.ok stored, w2) →
      ∃ file rest,
        (Handler svc environ w ⟨pre ++ record :: post⟩).trace =
          (Handler svc environ w ⟨pre⟩).trace ++
            .Download record.S3.Bucket.Name record.S3.Object.Key (List.replicate n 0) ::
            .Decode file :: rest ∧
        file.length = n ∧ ∀ i, i < n → file.getD i 0 = stored.getD i 0) ∧
    (record.S3.Object.Size < 0 →
      (∃ msg, (Handler svc environ w ⟨pre ++ record :: post⟩).outcome = .panicked msg) ∧
      (Handler svc environ w ⟨pre ++ record :: post⟩).trace =
        (Handler svc environ w ⟨pre⟩).trace) := by
  constructor
  · intro n buf stored w2 hn hbuf hdl
    have hb : buf = List.replicate n 0 := by
      have := (makeBytes_eq_some hbuf).2.2
      rw [hn] at this
      simpa using this
    subst hb
    obtain ⟨rest, hrest⟩ := processRecord_trace_of_fetched svc (Getenv environ "DestBucket")
      w1 w2 record _ stored hbuf hdl
    obtain ⟨more, hmore⟩ := loop_cons_trace svc (Getenv environ "DestBucket") w1 record post
    refine ⟨writeAt (List.replicate n 0) stored, rest ++ more, ?_, ?_, ?_⟩
    · simp only [Handler]
      rw [loop_append_of_succeed hpre, hmore, hrest]
      simp
    · simp [length_writeAt]
    · intro i hi
      exact getD_writeAt_replicate n stored i hi
  · intro hneg
    have hbuf : makeBytes svc.maxAlloc record.S3.Object.Size = none := by
      simp [makeBytes, hneg]
    have hab : (processRecord svc (Getenv environ "DestBucket") w1 record).abort =
        some (.panicked "runtime error: makeslice: len out of range") := by
      simp [processRecord, hbuf]
    have htr : (processRecord svc (Getenv environ "DestBucket") w1 record).trace = [] := by
      simp [processRecord, hbuf]
    simp only [Handler]
    rw [loop_append_of_succeed hpre, loop_cons_of_abort hab, htr]
    exact ⟨⟨_, rfl⟩, by simp⟩

/-- Witness of C10: a declared size of 8 for a stored object of 6 bytes. -/
theorem Handler_decode_buffer_witness :
    ∃ file rest,
      (Handler toy demoEnviron demoStore ⟨[] ++ mkRecord "src" "cat.png" 8 :: []⟩).trace =
        (Handler toy demoEnviron demoStore ⟨[]⟩).trace ++
          .Download "src" "cat.png" (List.replicate 8 0) :: .Decode file :: rest ∧
      file.length = 8 ∧ ∀ i, i < 8 → file.getD i 0 = [2, 88, 1, 144, 7, 7].getD i 0 :=
  (Handler_decode_buffer toy demoEnviron demoStore demoStore [] (mkRecord "src" "cat.png" 8) []
    (.nil _)).1 8 _ [2, 88, 1, 144, 7, 7] demoStore rfl rfl rfl

/-- C3, as stated, fails: with `DestBucket` unset the handler returns the
success status on the empty batch, and on a one-record batch it fetches the
source object and only then requests a write to the container with the empty
name. -/
theorem Handler_unset_DestBucket_counterexample :
    (Handler toy (fun _ => none) demoStore ⟨[]⟩).outcome =
      .returned "Resize successful" none ∧
    (Handler toy (fun _ => none) demoStore ⟨[mkRecord "src" "cat.png" 6]⟩).outcome =
      .fatal "Upload error: InvalidParameter" ∧
    requests (Handler toy (fun _ => none) demoStore ⟨[mkRecord "src" "cat.png" 6]⟩).trace =
      [.fetch "src" "cat.png", .write "" "cat.png"] :=
  ⟨rfl, rfl, rfl⟩

/-- C3, amended: the handler does not check `DestBucket`.  When the variable is
unset or empty, the handler returns the success status without any call on the
empty batch; every write it requests goes to the container with the empty name;
on a non-empty batch the fetch of the first record is the first call, as soon
as the buffer of that record is allocated; and when the object store refuses
every write to the container with the empty name, the handler does not return
on a non-empty batch. -/
theorem Handler_unset_DestBucket (svc : Services W Img)
    (environ : String → Option String) (w : W) (event : S3Event)
    (henv : environ "DestBucket" = none ∨ environ "DestBucket" = some "") :
    (event.Records = [] →
      (Handler svc environ w event).outcome = .returned "Resize successful" none ∧
      (Handler svc environ w event).trace = []) ∧
    (∀ bucket key, Request.write bucket key ∈ requests (Handler svc environ w event).trace →
      bucket = "") ∧
    (∀ record rest buf, event.Records = record :: rest →
      makeBytes svc.maxAlloc record.S3.Object.Size = some buf →
      ∃ tail, (Handler svc environ w event).trace =
        .Download record.S3.Bucket.Name record.S3.Object.Key buf :: tail) ∧
    ((∀ w0 key body, ∃ err w1, svc.Upload w0 "" key body = (.error err, w1)) →
      event.Records ≠ [] →
      ∀ value err, (Handler svc environ w event).outcome ≠ .returned value err) := by
  have hdst := Getenv_of_unset henv
  obtain ⟨records⟩ := event
  refine ⟨?_, ?_, ?_, ?_⟩
  · intro hnil
    simp only at hnil
    simp [Handler, hnil, Handler.loop]
  · intro bucket key hmem
    rw [← hdst]
    exact loop_write_bucket svc _ w records bucket key hmem
  · intro record rest buf hrec hbuf
    obtain ⟨more, hmore⟩ := loop_cons_trace svc (Getenv environ "DestBucket") w record rest
    obtain ⟨tl, htl⟩ := processRecord_trace_of_alloc svc (Getenv environ "DestBucket") w
      record buf hbuf
    simp only at hrec
    exact ⟨tl ++ more, by simp only [Handler]; rw [hrec, hmore, htl]; simp⟩
  · intro hrefuse hne value err hret
    simp only [Handler] at hret hne
    have hall := succeed_of_returned hret
    rw [hdst] at hall
    cases hall with
    | nil => exact hne rfl
    | cons hr _ =>
      obtain ⟨file, w1, body, -, -, hup⟩ := hr
      obtain ⟨e, w3, hbad⟩ := hrefuse w1 _ body
      rw [hbad] at hup
      simp at hup

/-- Witness of C3, amended: `DestBucket` unset and a one-record batch. -/
theorem Handler_unset_DestBucket_witness :
    (∃ tail, (Handler toy (fun _ => none) demoStore ⟨[mkRecord "src" "cat.png" 6]⟩).trace =
      .Download "src" "cat.png" [0, 0, 0, 0, 0, 0] :: tail) ∧
    ∀ value err,
      (Handler toy (fun _ => none) demoStore ⟨[mkRecord "src" "cat.png" 6]⟩).outcome ≠
        .returned value err :=
  have h := Handler_unset_DestBucket toy (fun _ => none) demoStore
    ⟨[mkRecord "src" "cat.png" 6]⟩ (.inl rfl)
  ⟨h.2.2.1 _ _ _ rfl rfl,
    h.2.2.2 (fun w0 _ _ => ⟨"InvalidParameter", w0, rfl⟩) (by simp)⟩

/-- C8, as stated, fails: `DestBucket` is `thumbs`, the first record is
`src/dog.png` and the second is `thumbs/dog.png` with declared size 5, the
object the first record writes (5 bytes).  Every step of the batch succeeds and
every step of the run on the second record alone succeeds; in the batch the
write for the second record carries the transcoding of the output of the first
record, while processed alone from the same store it carries the transcoding of
the object stored there at the start. -/
theorem Handler_write_in_batch_counterexample :
    AllSucceed toy "thumbs" aliasStore
      [mkRecord "src" "dog.png" 4, mkRecord "thumbs" "dog.png" 5]
      [(("thumbs", "dog.png"), [1, 44, 0, 100, 50]),
        (("thumbs", "dog.png"), [1, 44, 0, 100, 50]),
        (("src", "dog.png"), [3, 132, 1, 44]), (("thumbs", "dog.png"), [2, 88, 1, 144])] ∧
    AllSucceed toy "thumbs" aliasStore [mkRecord "thumbs" "dog.png" 5]
      [(("thumbs", "dog.png"), [1, 44, 0, 200, 50]),
        (("src", "dog.png"), [3, 132, 1, 44]), (("thumbs", "dog.png"), [2, 88, 1, 144])] ∧
    (Handler toy aliasEnviron aliasStore
      ⟨[mkRecord "src" "dog.png" 4, mkRecord "thumbs" "dog.png" 5]⟩).trace =
      [.Download "src" "dog.png" [0, 0, 0, 0], .Decode [3, 132, 1, 44],
        .Resize 300 0 ⟨900, 300⟩ .Lanczos3, .Encode ⟨300, 100⟩ 50,
        .Upload "thumbs" "dog.png" [1, 44, 0, 100, 50],
        .Download "thumbs" "dog.png" [0, 0, 0, 0, 0], .Decode [1, 44, 0, 100, 50],
        .Resize 300 0 ⟨300, 100⟩ .Lanczos3, .Encode ⟨300, 100⟩ 50,
        .Upload "thumbs" "dog.png" [1, 44, 0, 100, 50]] ∧
    (writes (Handler toy aliasEnviron aliasStore
      ⟨[mkRecord "src" "dog.png" 4, mkRecord "thumbs" "dog.png" 5]⟩).trace)[1]? =
      some ("thumbs", "dog.png", [1, 44, 0, 100, 50]) ∧
    (Handler toy aliasEnviron aliasStore ⟨[mkRecord "thumbs" "dog.png" 5]⟩).trace =
      [.Download "thumbs" "dog.png" [0, 0, 0, 0, 0], .Decode [2, 88, 1, 144, 0],
        .Resize 300 0 ⟨600, 400⟩ .Lanczos3, .Encode ⟨300, 200⟩ 50,
        .Upload "thumbs" "dog.png" [1, 44, 0, 200, 50]] ∧
    (writes (Handler toy aliasEnviron aliasStore
      ⟨[mkRecord "thumbs" "dog.png" 5]⟩).trace)[0]? =
      some ("thumbs", "dog.png", [1, 44, 0, 200, 50]) :=
  ⟨.cons ⟨_, _, _, ⟨_, _, rfl, rfl, rfl⟩, ⟨_, rfl, rfl⟩, rfl⟩
      (.cons ⟨_, _, _, ⟨_, _, rfl, rfl, rfl⟩, ⟨_, rfl, rfl⟩, rfl⟩ (.nil _)),
    .cons ⟨_, _, _, ⟨_, _, rfl, rfl, rfl⟩, ⟨_, rfl, rfl⟩, rfl⟩ (.nil _),
    rfl, rfl, rfl, rfl⟩

/-- C8, amended: on a store-like world, for a record all of whose steps succeed
after records that all succeeded, none of which wrote to the object the record
reads (the value of `DestBucket` with their key is not the source bucket of
the record with its key): the write for the record in the batch and the one write
of the run on the record alone, from the same world and environment, are the
same container (the value of `DestBucket`), key (the key of the record) and
body. -/
theorem Handler_write_alone (svc : Services W Img)
    (environ : String → Option String) (w w1 w2 : W) (pre : List S3EventRecord)
    (record : S3EventRecord) (post : List S3EventRecord)
    (hstore : StoreLike svc)
    (hpre : AllSucceed svc (Getenv environ "DestBucket") w pre w1)
    (hrec : RecordSucceeds svc (Getenv environ "DestBucket") w1 record w2)
    (hfresh : ∀ r ∈ pre, (Getenv environ "DestBucket", r.S3.Object.Key) ≠
      (record.S3.Bucket.Name, record.S3.Object.Key)) :
    ∃ body,
      (writes (Handler svc environ w ⟨pre ++ record :: post⟩).trace)[pre.length]? =
        some (Getenv environ "DestBucket", record.S3.Object.Key, body) ∧
      writes (Handler svc environ w ⟨[record]⟩).trace =
        [(Getenv environ "DestBucket", record.S3.Object.Key, body)] := by
  have hrec2 := hrec
  obtain ⟨file, wd, body, ⟨buf, stored, hbuf, hdl, rfl⟩, ⟨img, hdec, henc⟩, hup⟩ := hrec2
  refine ⟨body, ?_, ?_⟩
  · simp only [Handler]
    rw [loop_append_of_succeed hpre, loop_cons_of_succeeds hrec]
    simp only [writes_append]
    rw [List.getElem?_append_right (by rw [length_writes_of_succeed hpre]),
      length_writes_of_succeed hpre]
    simp [processRecord, hbuf, hdl, hdec, henc, hup, writes]
  · have hread := read_after_batch hstore hpre _ _ hfresh buf stored (by rw [hdl])
    rcases hds : svc.Download w record.S3.Bucket.Name record.S3.Object.Key buf
      with ⟨res, ws⟩
    rw [hds] at hread
    simp only at hread
    subst hread
    rcases hus : svc.Upload ws (Getenv environ "DestBucket") record.S3.Object.Key body
      with ⟨e | u, w3⟩ <;>
      simp [Handler, Handler.loop, processRecord, hbuf, hds, hdec, henc, hus, writes]

/-- Witness of C8, amended: the second record of `demoEvent`, whose source
object the first record does not write. -/
theorem Handler_write_alone_witness :
    ∃ body,
      (writes (Handler toy demoEnviron demoStore
        ⟨[mkRecord "src" "cat.png" 6] ++ mkRecord "src" "dog.png" 4 :: []⟩).trace)[1]? =
        some ("dst", "dog.png", body) ∧
      writes (Handler toy demoEnviron demoStore ⟨[mkRecord "src" "dog.png" 4]⟩).trace =
        [("dst", "dog.png", body)] :=
  Handler_write_alone toy demoEnviron demoStore _ _ [mkRecord "src" "cat.png" 6]
    (mkRecord "src" "dog.png" 4) [] toy_storeLike
    (.cons ⟨_, _, _, ⟨_, _, rfl, rfl, rfl⟩, ⟨_, rfl, rfl⟩, rfl⟩ (.nil _))
    ⟨_, _, _, ⟨_, _, rfl, rfl, rfl⟩, ⟨_, rfl, rfl⟩, rfl⟩
    (by decide)

end ImageResize

namespace HelloWorld

/-- C9: for every request the handler returns a nil error and the response with
status code 200, body `\x7b"message":"Hello World!"\x7d`, nil header maps and
`IsBase64Encoded` false; the response and the error are the same for all
requests (only the logged line names the request). -/
theorem Handler_response (request : APIGatewayProxyRequest) :
    (Handler request).err = none ∧
    (Handler request).response =
      { StatusCode := 200, Headers := none, MultiValueHeaders := none,
        Body := "\x7b\"message\":\"Hello World!\"\x7d", IsBase64Encoded := false } :=
  ⟨rfl, rfl⟩

end HelloWorld
